import Mathlib

/-!
# Verification of the voice-transcription pipeline

Shallow embedding of the repository's capture / transport / transcription /
post-processing logic, with theorems checking the specification's claims.

Strings are modelled as `List Char` (Lean's `String` is a structure over
`List Char`, so the two views convert by `String.mk` / `String.data`).
Asynchronous provider calls (Gemini `generateContent`, Speech-to-Text
`fetch`, `FileReader`) are modelled by passing the provider's response as an
explicit oracle argument; where a claim counts network calls, the embedded
function additionally returns the number of provider calls it issued.
-/

namespace VoiceTranscription

/-- Whitespace test for the JS regex class `\s` and `String.prototype.trim`
(ECMA-262 WhiteSpace and LineTerminator code points). -/
def isJsWs (c : Char) : Bool :=
  c = ' ' || c = '\t' || c = '\n' || c = '\r' ||
  c.toNat = 0x0B || c.toNat = 0x0C ||
  c.toNat = 0xA0 || c.toNat = 0x1680 ||
  (0x2000 ≤ c.toNat && c.toNat ≤ 0x200A) ||
  c.toNat = 0x2028 || c.toNat = 0x2029 ||
  c.toNat = 0x202F || c.toNat = 0x205F ||
  c.toNat = 0x3000 || c.toNat = 0xFEFF

/-- JS `s.trim()`: drop whitespace from both ends. -/
def jsTrim (l : List Char) : List Char :=
  ((l.dropWhile isJsWs).reverse.dropWhile isJsWs).reverse

/-- JS `s.trim()` on `String`. -/
def jsTrimS (s : String) : String := ⟨jsTrim s.data⟩

/-- JS `s.replace(/\s+/g, ' ')`: each maximal whitespace run becomes one space. -/
def collapseWs : List Char → List Char
  | [] => []
  | [a] => if isJsWs a then [' '] else [a]
  | a :: b :: rest =>
    if isJsWs a && isJsWs b then collapseWs (b :: rest)
    else (if isJsWs a then ' ' else a) :: collapseWs (b :: rest)

/-- JS `s.replace(/c+/g, 'c')` for a literal character `c`: each maximal run
of `c` becomes a single `c`. -/
def collapseChar (c : Char) : List Char → List Char
  | [] => []
  | [a] => [a]
  | a :: b :: rest =>
    if a = c && b = c then collapseChar c (b :: rest)
    else a :: collapseChar c (b :: rest)

/-- JS `s.split(c)` for a one-character separator: `"".split(',') = [""]`,
`"a,b".split(',') = ["a", "b"]`. -/
def splitOnChar (c : Char) : List Char → List (List Char)
  | [] => [[]]
  | a :: rest =>
    if a = c then [] :: splitOnChar c rest
    else
      match splitOnChar c rest with
      | [] => [[a]]
      | grp :: grps => (a :: grp) :: grps

/-- Containment test matching JS `hay.includes(needle)` (`startsWithSeq` is the
prefix test it scans with). -/
def startsWithSeq : List Char → List Char → Bool
  | [], _ => true
  | _ :: _, [] => false
  | p :: ps, c :: cs => p = c && startsWithSeq ps cs

/-- JS `hay.includes(needle)` on character lists. -/
def containsSeq (needle : List Char) : List Char → Bool
  | [] => startsWithSeq needle []
  | c :: rest => startsWithSeq needle (c :: rest) || containsSeq needle rest

/-- JS `hay.includes(needle)` on `String`. -/
def includesS (hay needle : String) : Bool := containsSeq needle.data hay.data

/-!
## Filler-pattern regular expressions

Every filler regex of the source has the shape
`literal-head  literal-tail  (repeat-char)+?  literal-suffix`:
for example `/えー+、/` is head `え`, no tail, repeat `ー` (one or more,
greedy), suffix `、`, and `/えっと/` is the bare literal `えっと`.
The first character is a separate field so a pattern is non-empty by
construction. Greedy matching without backtracking is faithful here because
in every pattern of the source the repeat character differs from the first
suffix character (`ー`/`の`/`ぁ`/`え`/`ん` versus `、`): after the maximal
repeat run the next character cannot equal the repeat character, so a shorter
run can never make the suffix match where the maximal run did not.
-/

/-- Shape of every filler regex in the source: `(head :: pre) rep+ suf` with
the repeat part present only when `rep` is `some`. -/
structure FillerPattern where
  head : Char
  pre : List Char
  rep : Option Char
  suf : List Char
deriving Repr, DecidableEq

/-- Removes the literal sequence `p` from the front of `s`, or fails. -/
def stripSeq? : List Char → List Char → Option (List Char)
  | [], s => some s
  | _ :: _, [] => none
  | p :: ps, c :: cs => if p = c then stripSeq? ps cs else none

/-- Greedily consumes leading copies of `c`, returning how many and the rest. -/
def takeReps (c : Char) : List Char → Nat × List Char
  | [] => (0, [])
  | a :: rest =>
    if a = c then ((takeReps c rest).1 + 1, (takeReps c rest).2)
    else (0, a :: rest)

/-- Attempts to match pattern `p` at the head of `s`; on success returns the
input with the matched characters removed from the front. -/
def matchRem (p : FillerPattern) (s : List Char) : Option (List Char) :=
  match stripSeq? (p.head :: p.pre) s with
  | none => none
  | some s1 =>
    match p.rep with
    | none => stripSeq? p.suf s1
    | some rc =>
      let (k, s2) := takeReps rc s1
      if k = 0 then none else stripSeq? p.suf s2

/-- Worker for `replaceAllPat`, structurally recursive on a fuel bound
(the input length suffices, since every step consumes at least one
character). -/
def raGo (p : FillerPattern) : Nat → List Char → List Char
  | 0, s => s
  | _ + 1, [] => []
  | fuel + 1, c :: rest =>
    match matchRem p (c :: rest) with
    | some r => raGo p fuel r
    | none => c :: raGo p fuel rest

/-- JS `s.replace(pattern, '')` with the `g` flag: scan left to right,
deleting every non-overlapping match. -/
def replaceAllPat (p : FillerPattern) (s : List Char) : List Char :=
  raGo p s.length s

/-- JS `pattern.test(s)` for a freshly scanned string: does the pattern match
at some position? -/
def hasMatch (p : FillerPattern) : List Char → Bool
  | [] => false
  | c :: rest => (matchRem p (c :: rest)).isSome || hasMatch p rest

/-- Worker for `stripFix`, on a fuel bound: each productive iteration
strictly shortens the string, so the input length is enough fuel. -/
def sfGo (p : FillerPattern) : Nat → List Char → List Char
  | 0, s => s
  | fuel + 1, s => if hasMatch p s then sfGo p fuel (replaceAllPat p s) else s

/-- The source's `while (pattern.test(t)) t = t.replace(pattern, '')` loop:
replace-all repeated until the pattern no longer matches. -/
def stripFix (p : FillerPattern) (s : List Char) : List Char := sfGo p s.length s

/-- Applies `stripFix` for each pattern in order (the `for ... of` loops of
the comma-aware `removeFillerSounds`). -/
def applyPatterns (ps : List FillerPattern) (s : List Char) : List Char :=
  ps.foldl (fun acc p => stripFix p acc) s

/-- Applies a single `replace(pattern, '')` for each pattern in order (the
`forEach` loop of the simple `removeFillerSounds` in `src/src/lib/llm.ts`). -/
def applyPatternsOnce (ps : List FillerPattern) (s : List Char) : List Char :=
  ps.foldl (fun acc p => replaceAllPat p acc) s

/-- Comma-attached filler patterns of `removeFillerSounds`
(`src/unnamed/part_000` lines 198-202), in source order:
`/あー+、/ /えー+、/ /うー+、/ /んー+、/ /その+、/ /まぁ+、/ /あの+、/
/えっと、/ /んと、/ /あのー+、/ /えーと、/ /えっとー+、/ /ええと、/
/まあ、/ /ええ+、/ /うーん+、/ /えっとですね、/`. -/
def fillerPatternsWithComma : List FillerPattern := [
  ⟨'あ', [], some 'ー', ['、']⟩,
  ⟨'え', [], some 'ー', ['、']⟩,
  ⟨'う', [], some 'ー', ['、']⟩,
  ⟨'ん', [], some 'ー', ['、']⟩,
  ⟨'そ', [], some 'の', ['、']⟩,
  ⟨'ま', [], some 'ぁ', ['、']⟩,
  ⟨'あ', [], some 'の', ['、']⟩,
  ⟨'え', ['っ', 'と', '、'], none, []⟩,
  ⟨'ん', ['と', '、'], none, []⟩,
  ⟨'あ', ['の'], some 'ー', ['、']⟩,
  ⟨'え', ['ー', 'と', '、'], none, []⟩,
  ⟨'え', ['っ', 'と'], some 'ー', ['、']⟩,
  ⟨'え', ['え', 'と', '、'], none, []⟩,
  ⟨'ま', ['あ', '、'], none, []⟩,
  ⟨'え', [], some 'え', ['、']⟩,
  ⟨'う', ['ー'], some 'ん', ['、']⟩,
  ⟨'え', ['っ', 'と', 'で', 'す', 'ね', '、'], none, []⟩
]

/-- Comma-less filler patterns, shared by `removeFillerSounds`
(`src/unnamed/part_000` lines 205-209) and the simple variant
(`src/src/lib/llm.ts` lines 94-98), in source order:
`/あー+/ /えー+/ /うー+/ /んー+/ /その+/ /まぁ+/ /ま、/ /あの+/ /えっと/
/んと/ /あのー+/ /えーと/ /えっとー+/ /ええと/ /まあ/ /ええ+/ /うーん+/
/えっとですね/`. -/
def fillerPatternsWithoutComma : List FillerPattern := [
  ⟨'あ', [], some 'ー', []⟩,
  ⟨'え', [], some 'ー', []⟩,
  ⟨'う', [], some 'ー', []⟩,
  ⟨'ん', [], some 'ー', []⟩,
  ⟨'そ', [], some 'の', []⟩,
  ⟨'ま', [], some 'ぁ', []⟩,
  ⟨'ま', ['、'], none, []⟩,
  ⟨'あ', [], some 'の', []⟩,
  ⟨'え', ['っ', 'と'], none, []⟩,
  ⟨'ん', ['と'], none, []⟩,
  ⟨'あ', ['の'], some 'ー', []⟩,
  ⟨'え', ['ー', 'と'], none, []⟩,
  ⟨'え', ['っ', 'と'], some 'ー', []⟩,
  ⟨'え', ['え', 'と'], none, []⟩,
  ⟨'ま', ['あ'], none, []⟩,
  ⟨'え', [], some 'え', []⟩,
  ⟨'う', ['ー'], some 'ん', []⟩,
  ⟨'え', ['っ', 'と', 'で', 'す', 'ね'], none, []⟩
]

/-- Filler removal, comma-aware variant (`removeFillerSounds`,
`src/unnamed/part_000` lines 188-254): reject empty input; strip the
comma-attached patterns to a fixed point, in order; then the comma-less
patterns likewise; collapse whitespace runs and trim; collapse `、` and
`。` runs; reject an empty result; return the trimmed text. -/
def removeFillerSounds (transcription : String) : Except String String :=
  if jsTrim transcription.data = [] then .error "処理するテキストが空です"
  else
    let c1 := applyPatterns fillerPatternsWithComma transcription.data
    let c2 := applyPatterns fillerPatternsWithoutComma c1
    let c3 := jsTrim (collapseWs c2)
    let c4 := collapseChar '、' c3
    let c5 := collapseChar '。' c4
    if jsTrim c5 = [] then .error "フィラー音除去結果が空です"
    else .ok ⟨jsTrim c5⟩

/-- Filler removal, simple variant (`removeFillerSounds`,
`src/src/lib/llm.ts` lines 85-125): one global replace per comma-less
pattern, whitespace collapse and trim, emptiness checks; there are no
comma-attached patterns and no punctuation-run collapse. -/
def removeFillerSoundsSimple (transcription : String) : Except String String :=
  if jsTrim transcription.data = [] then .error "処理するテキストが空です"
  else
    let c1 := applyPatternsOnce fillerPatternsWithoutComma transcription.data
    let c2 := jsTrim (collapseWs c1)
    if jsTrim c2 = [] then .error "フィラー音除去結果が空です"
    else .ok ⟨jsTrim c2⟩

/-!
## Transcription provider adapters

The adapters' asynchronous provider calls are oracles passed as arguments;
each adapter returns its result together with the number of provider
(network/model) calls it issued, so eager credential checks are observable
as a call count of zero. A missing environment variable and an empty string
are both falsy to the JS checks (`!API_KEY`, `!apiKey`), so keys are
modelled as `String` with `""` for absent.
-/

/-- Error thrown by `transcribeAudioWithGemini` when the key is empty
(`src/src/lib/gemini-api.ts` line 89). -/
def geminiMissingKeyMessage : String :=
  "Gemini APIキーが設定されていません。文字起こしを実行できません。"

/-- Gemini transcription backend (`transcribeAudioWithGemini`,
`src/src/lib/gemini-api.ts` lines 83-118): empty key throws before the
model call; otherwise one `generateContent` call is made and its outcome
(`modelResponse`) is returned, errors rethrown unchanged. -/
def transcribeAudioWithGemini (apiKey audioData mimeType : String)
    (modelResponse : Except String String) : Except String String × Nat :=
  let _ := audioData
  let _ := mimeType
  if apiKey = "" then (.error geminiMissingKeyMessage, 0)
  else (modelResponse, 1)

/-- Older Gemini transcription backend (`transcribeAudioWithGemini`,
`src/unnamed/part_000` lines 55-77): no key check at the call site — the
`generateContent` call is issued whatever the key, and its outcome is
returned with errors rethrown unchanged. -/
def transcribeAudioWithGeminiV0 (apiKey audioData mimeType : String)
    (modelResponse : Except String String) : Except String String × Nat :=
  let _ := apiKey
  let _ := audioData
  let _ := mimeType
  (modelResponse, 1)

/-- One `alternatives` entry of a Speech-to-Text result. -/
structure SpeechAlternative where
  transcript : String
deriving Repr, DecidableEq

/-- One entry of `data.results` in a Speech-to-Text response. -/
structure SpeechResult where
  alternatives : List SpeechAlternative
deriving Repr, DecidableEq

/-- HTTP response of the Speech-to-Text REST call as the handler reads it:
`ok`/`status`/`statusText` of the fetch response and the parsed `results`
array (an absent `results` field and an empty array take the same branch,
so both are modelled as `[]`). -/
structure SpeechResponse where
  ok : Bool
  status : Nat
  statusText : String
  results : List SpeechResult
deriving Repr, DecidableEq

/-- Message thrown when `GOOGLE_SPEECH_API_KEY` is absent
(`src/src/lib/server/speech-to-text-server.ts` line 23). -/
def speechMissingKeyMessage : String := "Speech-to-Text APIキーが設定されていません"

/-- Message thrown on a non-success HTTP status (line 98). -/
def speechHttpErrorMessage (status : Nat) (statusText : String) : String :=
  "Speech API エラー: " ++ toString status ++ " " ++ statusText

/-- Message thrown when the response carries no results (line 107). -/
def speechNoResultsMessage : String := "音声認識結果が空です。クリアに発音してみてください。"

/-- Message thrown when the concatenated transcript trims to nothing (line 122). -/
def speechEmptyTranscriptMessage : String := "認識結果が空です。別の音声を試してみてください。"

/-- The outer catch block (lines 126-138) rethrows every error as
`Speech API エラー: ` followed by the inner message. -/
def wrapSpeechError (msg : String) : String := "Speech API エラー: " ++ msg

/-- Concatenation of the alternative-1 transcripts (lines 111-116): for each
result with a non-empty `alternatives` array, append `transcript` and a
space. -/
def concatTranscripts (rs : List SpeechResult) : String :=
  rs.foldl (fun acc r =>
    match r.alternatives with
    | [] => acc
    | a :: _ => acc ++ a.transcript ++ " ") ""

/-- Speech-to-Text server backend (`transcribeAudioWithSpeechAPI`,
`src/src/lib/server/speech-to-text-server.ts` lines 11-139): empty key
throws before the fetch; otherwise one fetch is issued and the response
(`resp`) is processed — non-success status, a missing/empty `results`
array, and a whitespace-only concatenated transcript each throw; every
error is rewrapped by the outer catch. Returns the result paired with the
number of fetch calls issued. -/
def transcribeAudioWithSpeechAPI (apiKey audioData mimeType : String)
    (resp : SpeechResponse) : Except String String × Nat :=
  let _ := audioData
  let _ := mimeType
  if apiKey = "" then (.error (wrapSpeechError speechMissingKeyMessage), 0)
  else if resp.ok = false then
    (.error (wrapSpeechError (speechHttpErrorMessage resp.status resp.statusText)), 1)
  else if resp.results.length = 0 then
    (.error (wrapSpeechError speechNoResultsMessage), 1)
  else
    let transcription := concatTranscripts resp.results
    if jsTrim transcription.data = [] then
      (.error (wrapSpeechError speechEmptyTranscriptMessage), 1)
    else (.ok ⟨jsTrim transcription.data⟩, 1)

/-!
## Encoding selection of the dedicated speech backend
-/

/-- Inline encoding selection of the server backend
(`src/src/lib/server/speech-to-text-server.ts` lines 29-45): substring
containment checks in source order webm, mp3/mpeg, wav, flac; default
`OGG_OPUS`. -/
def serverEncoding (mimeType : String) : String :=
  if includesS mimeType "webm" then "WEBM_OPUS"
  else if includesS mimeType "mp3" || includesS mimeType "mpeg" then "MP3"
  else if includesS mimeType "wav" then "LINEAR16"
  else if includesS mimeType "flac" then "FLAC"
  else "OGG_OPUS"

/-- Sample-rate selection of the server backend (line 48):
`mimeType.includes('webm') ? 48000 : 16000`. -/
def serverSampleRateHertz (mimeType : String) : Nat :=
  if includesS mimeType "webm" then 48000 else 16000

/-- Exact-match encoding switch `getEncodingFromMimeType`
(`src/src/lib/speech-to-text.ts` lines 82-100, duplicated at
`src/src/lib/server/speech-to-text-server.ts` lines 146-164): default
`LINEAR16`. -/
def getEncodingFromMimeType (mimeType : String) : String :=
  if mimeType = "audio/wav" || mimeType = "audio/x-wav" then "LINEAR16"
  else if mimeType = "audio/webm" then "WEBM_OPUS"
  else if mimeType = "audio/mp3" || mimeType = "audio/mpeg" then "MP3"
  else if mimeType = "audio/ogg" then "OGG_OPUS"
  else if mimeType = "audio/flac" then "FLAC"
  else "LINEAR16"

/-- Sample rate of the client backend's request config
(`src/src/lib/speech-to-text.ts` line 30): the constant 16000, with no
dependence on the MIME type. -/
def clientSampleRateHertz : Nat := 16000

/-!
## Transport codec (`blobToBase64`)
-/

/-- What `reader.result` holds when `onloadend` fires: a string (the data
URL) or a non-string value. -/
inductive ReaderResult where
  | str (s : String)
  | nonString
deriving Repr, DecidableEq

/-- Rejection message when `split(',')[1]` is undefined or empty
(`src/src/lib/llm.ts` line 194). -/
def base64InvalidMessage : String := "Base64変換結果が不正です"

/-- Rejection message when `reader.result` is not a string (line 199). -/
def base64NonStringMessage : String := "FileReader結果が文字列ではありません"

/-- Transport codec (`blobToBase64`, `src/src/lib/llm.ts` lines 186-210):
the `onloadend` handler rejects a non-string read result; otherwise it
takes element 1 of the comma-split of the data URL, rejecting when that
element is absent or empty and resolving with it otherwise. -/
def blobToBase64 (r : ReaderResult) : Except String String :=
  match r with
  | .nonString => .error base64NonStringMessage
  | .str s =>
    match (splitOnChar ',' s.data).get? 1 with
    | none => .error base64InvalidMessage
    | some payload =>
      if payload = [] then .error base64InvalidMessage else .ok ⟨payload⟩

/-!
## `transcribeAudio` and `correctTranscription` (`src/src/lib/llm.ts`)
-/

/-- Wrap applied by `transcribeAudio`'s outer catch (line 75). -/
def transcribeFailMessage (msg : String) : String :=
  "文字起こしに失敗しました: " ++ msg

/-- Transcription front end (`transcribeAudio`, `src/src/lib/llm.ts` lines
10-77): reject a blob with empty type or zero size; convert via
`blobToBase64` (its `FileReader` outcome is the oracle `readerRes`); reject
an empty base64 string; call the Gemini backend (`geminiRes` is the model
call's outcome); reject a whitespace-only transcription; return the trimmed
transcription. Every thrown error reaches the outer catch, which rewraps
its message. -/
def transcribeAudio (blobType : String) (blobSize : Nat)
    (readerRes : ReaderResult) (geminiRes : Except String String) :
    Except String String :=
  if blobType = "" || blobSize = 0 then
    .error (transcribeFailMessage "無効な音声データ形式です。録音を再試行してください。")
  else
    match blobToBase64 readerRes with
    | .error e => .error (transcribeFailMessage e)
    | .ok base64Audio =>
      if base64Audio = "" then
        .error (transcribeFailMessage "音声データのBase64変換に失敗しました")
      else
        match geminiRes with
        | .error e => .error (transcribeFailMessage e)
        | .ok transcription =>
          if jsTrim transcription.data = [] then
            .error (transcribeFailMessage "文字起こし結果が空です。音声認識に失敗しました。")
          else .ok ⟨jsTrim transcription.data⟩

/-- Wrap applied by `correctTranscription`'s outer catch (line 177); the
printed temperature interpolated into the message is abstracted as the
string `temperature`. -/
def correctFailMessage (temperature msg : String) : String :=
  "テキストの校正に失敗しました (temperature=" ++ temperature ++ "): " ++ msg

/-- Grammar-correction stage (`correctTranscription`, `src/src/lib/llm.ts`
lines 135-179): reject whitespace-only input; call `generateText` (outcome
`genRes`); reject a whitespace-only corrected text; return the trimmed
corrected text. Errors are rewrapped by the outer catch. -/
def correctTranscription (transcription temperature : String)
    (genRes : Except String String) : Except String String :=
  if jsTrim transcription.data = [] then
    .error (correctFailMessage temperature "校正するテキストが空です")
  else
    match genRes with
    | .error e => .error (correctFailMessage temperature e)
    | .ok correctedText =>
      if jsTrim correctedText.data = [] then
        .error (correctFailMessage temperature "校正結果が空です")
      else .ok ⟨jsTrim correctedText.data⟩

/-!
## Pipeline orchestration (`handleRecordingComplete`, `src/src/app/page.tsx`)
-/

/-- Slice of the page state the parallel post-processing block touches. -/
structure PipelineState where
  fillerRemovedText : String
  correctedText : String
  errorMessage : Option String
deriving Repr, DecidableEq

/-- `Promise.all` over the two transform promises: fulfilled with the pair
when both fulfil, rejected with a failing branch's reason otherwise
(JS rejects with the temporally first rejection; with a single failing
branch that is that branch's error, which is the only case the claims
touch — when both fail we take the first array entry's error). -/
def promiseAllPair (a b : Except String String) :
    Except String (String × String) :=
  match a with
  | .error e => .error e
  | .ok x =>
    match b with
    | .error e => .error e
    | .ok y => .ok (x, y)

/-- The parallel post-processing block of `handleRecordingComplete`
(`src/src/app/page.tsx` lines 52-84, same shape in `src/unnamed/part_004`
lines 63-95): both text slots are reset to `''`; `Promise.all` awaits
filler removal (`fillerRes`) and correction (`correctRes`); on fulfilment
both slots are set, and on rejection the catch only records the error
message, leaving both slots as reset. -/
def processTranscribedText (fillerRes correctRes : Except String String) :
    PipelineState :=
  match promiseAllPair fillerRes correctRes with
  | .ok (f, c) => { fillerRemovedText := f, correctedText := c, errorMessage := none }
  | .error e => { fillerRemovedText := "", correctedText := "", errorMessage := some e }

/-!
## Audio capture (`src/src/components/recorder/AudioRecorder.tsx`)
-/

/-- Outcome of the `mediaRecorder.onstop` handler: either the
`onRecordingComplete` callback is invoked with a blob of the given size
and MIME type, or an error is shown and the callback is skipped. -/
inductive StopOutcome where
  | completed (size : Nat) (mimeType : String)
  | failed (msg : String)
deriving Repr, DecidableEq

/-- Whether the stop outcome invoked the `onRecordingComplete` callback
(the only path into the transport codec). -/
def callbackInvoked : StopOutcome → Bool
  | .completed _ _ => true
  | .failed _ => false

/-- The `mediaRecorder.onstop` handler
(`src/src/components/recorder/AudioRecorder.tsx` lines 154-183):
no accumulated chunks throws; the chunks are concatenated into a blob
of their total size tagged `selectedMimeType` (or `audio/webm` when none
was chosen); a zero-size blob throws; otherwise `onRecordingComplete`
is invoked. Thrown errors are caught and shown via `setError`. -/
def onstopHandler (chunkSizes : List Nat) (selectedMimeType : String) :
    StopOutcome :=
  if chunkSizes.length = 0 then .failed "録音データが取得できませんでした"
  else
    let size := chunkSizes.foldl (· + ·) 0
    if size = 0 then .failed "録音データが空です"
    else .completed size (if selectedMimeType = "" then "audio/webm" else selectedMimeType)

/-- State of the recording timer: the accumulated `recordingTime` (ms) and
whether recording is still running. -/
structure RecorderTimerState where
  recordingTime : Nat
  isRecording : Bool
deriving Repr, DecidableEq

/-- One `setInterval` tick of the recording timer
(`src/src/components/recorder/AudioRecorder.tsx` lines 58-81): when
recording, the ceiling check `prev + 1000 >= maxDurationMs` force-stops
recording and keeps the time, otherwise the time advances by 1000 ms; the
interval is cleared once recording stops. -/
def timerTick (maxDurationMs : Nat) (s : RecorderTimerState) : RecorderTimerState :=
  if s.isRecording = false then s
  else if maxDurationMs ≤ s.recordingTime + 1000 then
    { recordingTime := s.recordingTime, isRecording := false }
  else
    { recordingTime := s.recordingTime + 1000, isRecording := true }

/-- Timer state when recording starts: zero elapsed time. -/
def initialTimerState : RecorderTimerState := ⟨0, true⟩

/-- The timer state after `n` ticks. -/
def timerAfter (maxDurationMs n : Nat) : RecorderTimerState :=
  Nat.rec initialTimerState (fun _ s => timerTick maxDurationMs s) n

/-- Default maximum recording duration (`maxDurationMs = 60000 * 5`,
`src/src/components/recorder/AudioRecorder.tsx` line 19). -/
def defaultMaxDurationMs : Nat := 60000 * 5

/-- Timeslice passed to `mediaRecorder.start(250)` (line 186): a data chunk
is requested every 250 ms. -/
def chunkIntervalMs : Nat := 250

/-!
## Helper lemmas
-/

/-- Dropping a satisfied prefix twice is the same as dropping it once. -/
theorem dropWhile_dropWhile (p : Char → Bool) (l : List Char) :
    (l.dropWhile p).dropWhile p = l.dropWhile p := by
  induction l with
  | nil => rfl
  | cons a t ih =>
    by_cases h : p a = true
    · simp [List.dropWhile, h, ih]
    · simp [List.dropWhile, h]

/-- When `dropWhile` keeps a list whole, it also keeps whole any decomposition's
left part. -/
theorem dropWhile_left_of_append (p : Char → Bool) (x w : List Char)
    (h : (x ++ w).dropWhile p = x ++ w) : x.dropWhile p = x := by
  cases x with
  | nil => rfl
  | cons a t =>
    by_cases ha : p a = true
    · exfalso
      rw [List.cons_append, List.dropWhile] at h
      simp only [ha, if_pos] at h
      have hlen := congrArg List.length h
      have hle : ((t ++ w).dropWhile p).length ≤ (t ++ w).length := by
        induction (t ++ w) with
        | nil => simp [List.dropWhile]
        | cons b u ihu =>
          by_cases hb : p b = true
          · simp only [List.dropWhile, hb, if_pos]
            exact Nat.le_succ_of_le ihu
          · simp [List.dropWhile, hb]
      simp only [List.length_cons, List.length_append] at hlen hle
      omega
    · simp [List.dropWhile, ha]

/-- Left-trim of the source's `trim`. -/
def ldropWs (l : List Char) : List Char := l.dropWhile isJsWs

/-- Right-trim of the source's `trim`. -/
def rdropWs (l : List Char) : List Char := (l.reverse.dropWhile isJsWs).reverse

/-- Unfolding of `jsTrim` as a right trim after a left trim. -/
theorem jsTrim_eq (l : List Char) : jsTrim l = rdropWs (ldropWs l) := rfl

/-- Right trim of a left-trimmed list is still left-trimmed. -/
theorem ldropWs_rdropWs (m : List Char) (hm : ldropWs m = m) :
    ldropWs (rdropWs m) = rdropWs m := by
  have hsplit : m = rdropWs m ++ (m.reverse.takeWhile isJsWs).reverse := by
    have h1 : m.reverse.dropWhile isJsWs ++ [] =
        m.reverse.dropWhile isJsWs := List.append_nil _
    have := List.takeWhile_append_dropWhile (p := isJsWs) (l := m.reverse)
    calc m = m.reverse.reverse := (List.reverse_reverse m).symm
    _ = (m.reverse.takeWhile isJsWs ++ m.reverse.dropWhile isJsWs).reverse := by rw [this]
    _ = rdropWs m ++ (m.reverse.takeWhile isJsWs).reverse := by
        rw [List.reverse_append]; rfl
  have := dropWhile_left_of_append isJsWs (rdropWs m)
    ((m.reverse.takeWhile isJsWs).reverse) (by rw [← hsplit]; exact hm)
  exact this

/-- The source's `trim` is idempotent. -/
theorem jsTrim_idem (l : List Char) : jsTrim (jsTrim l) = jsTrim l := by
  have hld : ldropWs (ldropWs l) = ldropWs l := dropWhile_dropWhile isJsWs l
  have hmid : ldropWs (rdropWs (ldropWs l)) = rdropWs (ldropWs l) :=
    ldropWs_rdropWs (ldropWs l) hld
  have hrd : rdropWs (rdropWs (ldropWs l)) = rdropWs (ldropWs l) := by
    unfold rdropWs
    rw [List.reverse_reverse, dropWhile_dropWhile]
  rw [jsTrim_eq, jsTrim_eq, hmid, hrd]

/-- Idempotence of the source's `trim`, on `String`. -/
theorem jsTrimS_idem (s : String) : jsTrimS (jsTrimS s) = jsTrimS s := by
  unfold jsTrimS
  exact congrArg String.mk (jsTrim_idem s.data)

/-- Stripping a literal sequence shortens the input by that sequence's length. -/
theorem stripSeq?_length (p s r : List Char) (h : stripSeq? p s = some r) :
    r.length + p.length = s.length := by
  induction p generalizing s with
  | nil =>
    simp only [stripSeq?, Option.some.injEq] at h
    simp [← h]
  | cons a ps ih =>
    cases s with
    | nil => simp [stripSeq?] at h
    | cons c cs =>
      simp only [stripSeq?] at h
      by_cases hac : a = c
      · simp only [hac, if_pos rfl] at h
        have := ih cs h
        simp only [List.length_cons]
        omega
      · simp [hac] at h

/-- Greedy repetition consumption splits the input's length. -/
theorem takeReps_length (c : Char) (s : List Char) :
    (takeReps c s).1 + (takeReps c s).2.length = s.length := by
  induction s with
  | nil => rfl
  | cons a t ih =>
    by_cases hac : a = c
    · subst hac
      have e : takeReps a (a :: t) = ((takeReps a t).1 + 1, (takeReps a t).2) := by
        simp [takeReps]
      rw [e]
      simp only [List.length_cons]
      omega
    · simp [takeReps, hac]

/-- Helper restating `takeReps_length` with the projections named. -/
theorem takeReps_length_eq (c : Char) (s : List Char) :
    (takeReps c s).2.length ≤ s.length := by
  have := takeReps_length c s
  omega

/-- A successful pattern match consumes at least one character. -/
theorem matchRem_length (p : FillerPattern) (s r : List Char)
    (h : matchRem p s = some r) : r.length < s.length := by
  unfold matchRem at h
  cases h1 : stripSeq? (p.head :: p.pre) s with
  | none => rw [h1] at h; exact absurd h (by simp)
  | some s1 =>
    rw [h1] at h
    have hs1 : s1.length + (p.head :: p.pre).length = s.length :=
      stripSeq?_length _ _ _ h1
    simp only [List.length_cons] at hs1
    cases hrep : p.rep with
    | none =>
      rw [hrep] at h
      simp only at h
      have := stripSeq?_length _ _ _ h
      omega
    | some rc =>
      rw [hrep] at h
      simp only at h
      by_cases hk : (takeReps rc s1).1 = 0
      · rw [if_pos hk] at h
        exact absurd h (by simp)
      · rw [if_neg hk] at h
        have h2 := takeReps_length rc s1
        have := stripSeq?_length _ _ _ h
        omega

/-- Replacement never lengthens the string. -/
theorem raGo_length_le (p : FillerPattern) (fuel : Nat) (s : List Char) :
    (raGo p fuel s).length ≤ s.length := by
  induction fuel generalizing s with
  | zero => simp [raGo]
  | succ n ih =>
    cases s with
    | nil => simp [raGo]
    | cons c rest =>
      simp only [raGo]
      cases hm : matchRem p (c :: rest) with
      | some r =>
        have h1 := matchRem_length p (c :: rest) r hm
        have h2 := ih r
        simp only [List.length_cons] at h1 ⊢
        omega
      | none =>
        have h2 := ih rest
        simp only [List.length_cons]
        omega

/-- Replacement is the identity exactly on strings without a match. -/
theorem raGo_of_no_match (p : FillerPattern) (fuel : Nat) (s : List Char)
    (h : hasMatch p s = false) : raGo p fuel s = s := by
  induction fuel generalizing s with
  | zero => rfl
  | succ n ih =>
    cases s with
    | nil => rfl
    | cons c rest =>
      simp only [hasMatch, Bool.or_eq_false_iff] at h
      simp only [raGo]
      cases hm : matchRem p (c :: rest) with
      | some r => rw [hm] at h; simp [Option.isSome] at h
      | none => rw [ih rest h.2]

/-- With enough fuel, replacement strictly shortens a string that has a match. -/
theorem raGo_length_lt (p : FillerPattern) (fuel : Nat) (s : List Char)
    (hfuel : s.length ≤ fuel) (h : hasMatch p s = true) :
    (raGo p fuel s).length < s.length := by
  induction fuel generalizing s with
  | zero =>
    have : s = [] := List.length_eq_zero.mp (Nat.le_zero.mp hfuel)
    subst this
    simp [hasMatch] at h
  | succ n ih =>
    cases s with
    | nil => simp [hasMatch] at h
    | cons c rest =>
      simp only [raGo]
      cases hm : matchRem p (c :: rest) with
      | some r =>
        have h1 := matchRem_length p (c :: rest) r hm
        have h2 := raGo_length_le p n r
        simp only [List.length_cons] at h1 ⊢
        omega
      | none =>
        simp only [hasMatch, hm, Option.isSome_none, Bool.false_or] at h
        have hr : rest.length ≤ n := by
          simp only [List.length_cons] at hfuel
          omega
        have := ih rest hr h
        simp only [List.length_cons]
        omega

/-- With enough fuel, the replace-until-no-match loop reaches a fixed point:
no match remains in its result. -/
theorem sfGo_no_match (p : FillerPattern) (fuel : Nat) (s : List Char)
    (hfuel : s.length ≤ fuel) : hasMatch p (sfGo p fuel s) = false := by
  induction fuel generalizing s with
  | zero =>
    have : s = [] := List.length_eq_zero.mp (Nat.le_zero.mp hfuel)
    subst this
    simp [sfGo, hasMatch]
  | succ n ih =>
    simp only [sfGo]
    cases hm : hasMatch p s with
    | false => simpa using hm
    | true =>
      simp only [if_pos rfl]
      have hlt : (replaceAllPat p s).length < s.length :=
        raGo_length_lt p s.length s (Nat.le_refl _) hm
      exact ih (replaceAllPat p s) (by omega)

/-- The stripping loop leaves a string without the pattern unchanged. -/
theorem stripFix_of_no_match (p : FillerPattern) (s : List Char)
    (h : hasMatch p s = false) : stripFix p s = s := by
  unfold stripFix
  cases hl : s.length with
  | zero => rfl
  | succ n => simp [sfGo, h]

/-- After stripping, no occurrence of the pattern remains. -/
theorem hasMatch_stripFix (p : FillerPattern) (s : List Char) :
    hasMatch p (stripFix p s) = false :=
  sfGo_no_match p s.length s (Nat.le_refl _)

/-!
## Claim theorems
-/

/-- C2: applying the comma-aware filler-word removal transform to
`えーと、今日は会議です。えー、よろしくお願いします。` returns exactly
`今日は会議です。よろしくお願いします。` — every filler token and its
attached comma removed, sentence-final punctuation unchanged. -/
theorem removeFillerSounds_example :
    removeFillerSounds "えーと、今日は会議です。えー、よろしくお願いします。" =
      .ok "今日は会議です。よろしくお願いします。" := by rfl

/-- C3 counterexample: the stripper is not idempotent. On `あええっとーい`
both variants succeed with `あえーい` (the pass for `/えっと/` removes
`えっと`, splicing `え` and `ー` into a fresh `えー` occurrence that the
earlier `/えー+/` pass no longer sees), yet re-running them on `あえーい`
returns `あい`, removing two further characters. -/
theorem removeFillerSounds_not_idempotent :
    removeFillerSounds "あええっとーい" = .ok "あえーい" ∧
    removeFillerSounds "あえーい" = .ok "あい" ∧
    removeFillerSoundsSimple "あええっとーい" = .ok "あえーい" ∧
    removeFillerSoundsSimple "あえーい" = .ok "あい" ∧
    ("あい" : String) ≠ "あえーい" :=
  ⟨by rfl, by rfl, by rfl, by rfl, by decide⟩

/-- C3 amended: each single pattern's replace-until-no-match pass is
idempotent — after `stripFix p`, the pattern `p` no longer matches, so
running the same pass again leaves the text unchanged. (The full stripper,
which chains such passes over many patterns, is not idempotent: see the
counterexample.) -/
theorem stripFix_idem (p : FillerPattern) (s : List Char) :
    stripFix p (stripFix p s) = stripFix p s :=
  stripFix_of_no_match p (stripFix p s) (hasMatch_stripFix p s)

/-- C1 counterexample: with a successful filler-removal result and a failed
correction call, the orchestrator's final state has an EMPTY filler-removed
slot together with the recorded error — the successful branch's result is
discarded, contrary to the claim that the non-empty filler-removed text is
exposed. -/
theorem promiseAll_discards_filler_result :
    (processTranscribedText (.ok "今日は会議です。よろしくお願いします。")
        (.error "校正結果が空です")).fillerRemovedText = "" ∧
    (processTranscribedText (.ok "今日は会議です。よろしくお願いします。")
        (.error "校正結果が空です")).errorMessage = some "校正結果が空です" :=
  ⟨rfl, rfl⟩

/-- C1 amended: because the orchestrator awaits the two transforms with
`Promise.all`, a failed correction call rejects the combined promise before
either slot is assigned: the catch records the correction error and both
text slots keep their reset empty value, so the successful filler-removal
result is discarded rather than exposed. -/
theorem processTranscribedText_correction_failure (f e : String) :
    processTranscribedText (.ok f) (.error e) =
      { fillerRemovedText := "", correctedText := "", errorMessage := some e } := rfl

/-- C6: when the stop handler fires with zero accumulated audio bytes — no
recorded chunks, or a zero-size concatenated blob — it signals an
empty-recording error and never invokes the recording-complete callback. -/
theorem onstop_empty_recording (chunkSizes : List Nat) (mime : String)
    (h : chunkSizes.foldl (· + ·) 0 = 0) :
    callbackInvoked (onstopHandler chunkSizes mime) = false ∧
    (onstopHandler chunkSizes mime = .failed "録音データが取得できませんでした" ∨
     onstopHandler chunkSizes mime = .failed "録音データが空です") := by
  unfold onstopHandler
  cases chunkSizes with
  | nil => exact ⟨rfl, Or.inl rfl⟩
  | cons a t =>
    simp only [List.length_cons, h]
    exact ⟨rfl, Or.inr rfl⟩

/-- C6 witness: the stop handler with no recorded chunks. -/
theorem onstop_empty_recording_witness :
    callbackInvoked (onstopHandler [] "audio/webm") = false ∧
    (onstopHandler [] "audio/webm" = .failed "録音データが取得できませんでした" ∨
     onstopHandler [] "audio/webm" = .failed "録音データが空です") :=
  onstop_empty_recording [] "audio/webm" rfl

/-- Invariant behind C9: the timer state never exceeds the ceiling. -/
theorem timerAfter_le (maxD n : Nat) : (timerAfter maxD n).recordingTime ≤ maxD := by
  induction n with
  | zero => exact Nat.zero_le maxD
  | succ n ih =>
    show (timerTick maxD (timerAfter maxD n)).recordingTime ≤ maxD
    unfold timerTick
    by_cases h1 : (timerAfter maxD n).isRecording = false
    · rw [if_pos h1]; exact ih
    · rw [if_neg h1]
      by_cases h2 : maxD ≤ (timerAfter maxD n).recordingTime + 1000
      · rw [if_pos h2]; exact ih
      · rw [if_neg h2]
        show (timerAfter maxD n).recordingTime + 1000 ≤ maxD
        omega

/-- C9: data chunks are requested at a fixed 250 ms cadence
(`mediaRecorder.start(250)`), the default duration ceiling is 300000 ms,
the timer force-stops recording on the tick where the accumulated time
would reach the ceiling, and in every reachable timer state the recorded
elapsed time never exceeds the ceiling. -/
theorem recordingTime_never_exceeds_ceiling :
    chunkIntervalMs = 250 ∧
    defaultMaxDurationMs = 300000 ∧
    (∀ maxD n, (timerAfter maxD n).recordingTime ≤ maxD) ∧
    (∀ maxD (s : RecorderTimerState), s.isRecording = true →
      maxD ≤ s.recordingTime + 1000 →
      (timerTick maxD s).isRecording = false ∧
      (timerTick maxD s).recordingTime = s.recordingTime) := by
  refine ⟨rfl, rfl, timerAfter_le, ?_⟩
  intro maxD s hs hceil
  unfold timerTick
  rw [hs]
  simp [hceil]

/-- C5 counterexample: the older Gemini backend of `src/unnamed/part_000`
performs no credential check — with the API key absent it still issues its
one model call (and even returns the model's answer), so the number of
network/model calls is 1, not 0. -/
theorem geminiV0_calls_without_key :
    transcribeAudioWithGeminiV0 "" "QUJD" "audio/webm" (.ok "こんにちは") =
      (.ok "こんにちは", 1) ∧
    (1 : Nat) ≠ 0 :=
  ⟨rfl, by decide⟩

/-- C5 amended: the current backends check credentials eagerly — with the
API key absent, `transcribeAudioWithGemini` (gemini-api.ts) and
`transcribeAudioWithSpeechAPI` (speech-to-text-server.ts) return a
missing-credential error having issued zero network/model calls; the older
part_000 Gemini variant lacks the check and calls the model regardless. -/
theorem missingKey_means_no_call (audioData mimeType : String)
    (modelResponse : Except String String) (resp : SpeechResponse) :
    transcribeAudioWithGemini "" audioData mimeType modelResponse =
      (.error geminiMissingKeyMessage, 0) ∧
    transcribeAudioWithSpeechAPI "" audioData mimeType resp =
      (.error (wrapSpeechError speechMissingKeyMessage), 0) :=
  ⟨rfl, rfl⟩

/-- Helper for C7: the zero-results message differs from the HTTP-failure
message whatever the status and status text. -/
theorem speechMessages_distinct (st : Nat) (stx : String) :
    wrapSpeechError speechNoResultsMessage ≠
      wrapSpeechError (speechHttpErrorMessage st stx) := by
  intro h
  unfold wrapSpeechError speechHttpErrorMessage speechNoResultsMessage at h
  have hd := congrArg String.data h
  simp only [String.data_append] at hd
  have hd2 := List.append_cancel_left hd
  simp at hd2

/-- C7: with credentials present, the speech adapter raises a transcription
error whenever the response has a non-success HTTP status, carries no
results, or concatenates to a whitespace-only transcript — and the
zero-results message is distinguishable from the network-level (HTTP
status) failure message for every status and status text. -/
theorem speechAPI_response_errors (apiKey audioData mimeType : String)
    (resp : SpeechResponse) (hk : apiKey ≠ "") :
    (resp.ok = false →
      (transcribeAudioWithSpeechAPI apiKey audioData mimeType resp).1 =
        .error (wrapSpeechError (speechHttpErrorMessage resp.status resp.statusText))) ∧
    (resp.ok = true → resp.results = [] →
      (transcribeAudioWithSpeechAPI apiKey audioData mimeType resp).1 =
        .error (wrapSpeechError speechNoResultsMessage)) ∧
    (resp.ok = true → resp.results ≠ [] →
      jsTrim (concatTranscripts resp.results).data = [] →
      (transcribeAudioWithSpeechAPI apiKey audioData mimeType resp).1 =
        .error (wrapSpeechError speechEmptyTranscriptMessage)) ∧
    (∀ st stx, wrapSpeechError speechNoResultsMessage ≠
      wrapSpeechError (speechHttpErrorMessage st stx)) := by
  refine ⟨?_, ?_, ?_, speechMessages_distinct⟩
  · intro ho
    simp [transcribeAudioWithSpeechAPI, hk, ho]
  · intro ho hr
    simp [transcribeAudioWithSpeechAPI, hk, ho, hr]
  · intro ho hr hw
    have hlen : resp.results.length ≠ 0 := by
      simpa [List.length_eq_zero] using hr
    simp [transcribeAudioWithSpeechAPI, hk, ho, hlen, hw]

/-- C7 witness: a 400 response with credentials present raises the wrapped
HTTP-failure error. -/
theorem speechAPI_response_errors_witness :
    (transcribeAudioWithSpeechAPI "key" "QUJD" "audio/webm"
        ⟨false, 400, "Bad Request", []⟩).1 =
      .error (wrapSpeechError (speechHttpErrorMessage 400 "Bad Request")) :=
  (speechAPI_response_errors "key" "QUJD" "audio/webm"
    ⟨false, 400, "Bad Request", []⟩ (by decide)).1 rfl

/-- Splitting a list without the separator yields that list alone. -/
theorem splitOnChar_no_sep (c : Char) (l : List Char) (h : c ∉ l) :
    splitOnChar c l = [l] := by
  induction l with
  | nil => rfl
  | cons a t ih =>
    have hac : ¬a = c := fun he => h (he ▸ List.mem_cons_self a t)
    have ht : c ∉ t := fun hm => h (List.mem_cons_of_mem a hm)
    simp [splitOnChar, hac, ih ht]

/-- Splitting at the first separator detaches the separator-free part
before it. -/
theorem splitOnChar_sep (c : Char) (pre rest : List Char) (hp : c ∉ pre) :
    splitOnChar c (pre ++ c :: rest) = pre :: splitOnChar c rest := by
  induction pre with
  | nil => simp [splitOnChar]
  | cons a t ih =>
    have hac : ¬a = c := fun he => hp (he ▸ List.mem_cons_self a t)
    have ht : c ∉ t := fun hm => hp (List.mem_cons_of_mem a hm)
    rw [List.cons_append]
    simp [splitOnChar, hac, ih ht]

/-- C8: the transport encoder rejects a non-string read result; rejects a
read result without a comma (no data-URL payload to strip); and on a
data-URL-shaped result `pre ++ ',' ++ payload` rejects exactly when the
payload is empty, resolving with the payload (the data-URL prefix removed)
otherwise. -/
theorem blobToBase64_spec :
    blobToBase64 .nonString = .error base64NonStringMessage ∧
    (∀ s : String, ',' ∉ s.data → blobToBase64 (.str s) = .error base64InvalidMessage) ∧
    (∀ pre payload : List Char, ',' ∉ pre → ',' ∉ payload →
      blobToBase64 (.str ⟨pre ++ ',' :: payload⟩) =
        if payload = [] then .error base64InvalidMessage else .ok ⟨payload⟩) := by
  refine ⟨rfl, ?_, ?_⟩
  · intro s hs
    simp [blobToBase64, splitOnChar_no_sep ',' s.data hs]
  · intro pre payload hp hq
    have hdata : (String.mk (pre ++ ',' :: payload)).data = pre ++ ',' :: payload := rfl
    simp [blobToBase64, hdata, splitOnChar_sep ',' pre payload hp,
      splitOnChar_no_sep ',' payload hq]

/-- Helper for C10: a result produced as the trim of some text, guarded
non-empty, equals its own trim and is non-empty. -/
theorem trimmedOk_of_ok (x : List Char) (o : String) (hne : ¬jsTrim x = [])
    (h : (Except.ok (String.mk (jsTrim x)) : Except String String) = .ok o) :
    jsTrimS o = o ∧ o ≠ "" := by
  have ho : String.mk (jsTrim x) = o := by injection h
  refine ⟨?_, ?_⟩
  · rw [← ho]
    show String.mk (jsTrim (jsTrim x)) = String.mk (jsTrim x)
    rw [jsTrim_idem]
  · rw [← ho]
    intro he
    exact hne (congrArg String.data he)

/-- C10: whenever `transcribeAudio`, either filler-removal variant, or
`correctTranscription` resolves successfully, the returned string equals
its own trim and its trim is non-empty — an empty or whitespace-only
candidate result raises an error instead of being returned. -/
theorem llm_outputs_trimmed_nonempty :
    (∀ (bt : String) (bs : Nat) (rr : ReaderResult) (gr : Except String String)
      (o : String), transcribeAudio bt bs rr gr = .ok o → jsTrimS o = o ∧ o ≠ "") ∧
    (∀ s o, removeFillerSounds s = .ok o → jsTrimS o = o ∧ o ≠ "") ∧
    (∀ s o, removeFillerSoundsSimple s = .ok o → jsTrimS o = o ∧ o ≠ "") ∧
    (∀ s t gr o, correctTranscription s t gr = .ok o → jsTrimS o = o ∧ o ≠ "") := by
  refine ⟨?_, ?_, ?_, ?_⟩
  · intro bt bs rr gr o h
    unfold transcribeAudio at h
    split at h
    · simp at h
    · split at h
      · simp at h
      · split at h
        · simp at h
        · split at h
          · simp at h
          · split at h
            · simp at h
            · rename_i hg
              exact trimmedOk_of_ok _ o hg h
  · intro s o h
    unfold removeFillerSounds at h
    split at h
    · simp at h
    · simp only [] at h
      split at h
      · simp at h
      · rename_i hg
        exact trimmedOk_of_ok _ o hg h
  · intro s o h
    unfold removeFillerSoundsSimple at h
    split at h
    · simp at h
    · simp only [] at h
      split at h
      · simp at h
      · rename_i hg
        exact trimmedOk_of_ok _ o hg h
  · intro s t gr o h
    unfold correctTranscription at h
    split at h
    · simp at h
    · split at h
      · simp at h
      · split at h
        · simp at h
        · rename_i hg
          exact trimmedOk_of_ok _ o hg h

/-- C4 counterexample: the server backend checks `webm` before `wav`, so a
MIME type containing both (e.g. `audio/wav;codecs=webm`) selects
`WEBM_OPUS`, not the `LINEAR16` the claim's wav clause demands; and the
client variant's request config fixes the sample rate at 16000 Hz for every
type, `audio/webm` included, rather than 48000 Hz. -/
theorem serverEncoding_wav_webm_overlap :
    includesS "audio/wav;codecs=webm" "wav" = true ∧
    serverEncoding "audio/wav;codecs=webm" = "WEBM_OPUS" ∧
    serverEncoding "audio/wav;codecs=webm" ≠ "LINEAR16" ∧
    clientSampleRateHertz = 16000 ∧
    clientSampleRateHertz ≠ 48000 :=
  ⟨by rfl, by rfl, by decide, rfl, by decide⟩

/-- C4 amended: the encoding selection is a deterministic total function,
with the server backend's containment checks applied in priority order webm
(48000 Hz), then mp3/mpeg, then wav, then flac, defaulting to `OGG_OPUS`
and 16000 Hz; the switch-based variant maps the exact types
`audio/wav`/`audio/x-wav`, `audio/webm`, `audio/mp3`/`audio/mpeg`,
`audio/ogg`, `audio/flac` and defaults to `LINEAR16`; the client variant's
sample rate is the constant 16000 Hz. -/
theorem encoding_selection_characterization (m : String) :
    (serverEncoding m = "WEBM_OPUS" ↔ includesS m "webm" = true) ∧
    (serverSampleRateHertz m = 48000 ↔ includesS m "webm" = true) ∧
    (includesS m "webm" = false → serverSampleRateHertz m = 16000) ∧
    (serverEncoding m = "MP3" ↔ includesS m "webm" = false ∧
      (includesS m "mp3" = true ∨ includesS m "mpeg" = true)) ∧
    (serverEncoding m = "LINEAR16" ↔ includesS m "webm" = false ∧
      includesS m "mp3" = false ∧ includesS m "mpeg" = false ∧
      includesS m "wav" = true) ∧
    (serverEncoding m = "FLAC" ↔ includesS m "webm" = false ∧
      includesS m "mp3" = false ∧ includesS m "mpeg" = false ∧
      includesS m "wav" = false ∧ includesS m "flac" = true) ∧
    (serverEncoding m = "OGG_OPUS" ↔ includesS m "webm" = false ∧
      includesS m "mp3" = false ∧ includesS m "mpeg" = false ∧
      includesS m "wav" = false ∧ includesS m "flac" = false) ∧
    (getEncodingFromMimeType m = "WEBM_OPUS" ↔ m = "audio/webm") ∧
    (getEncodingFromMimeType m = "MP3" ↔ (m = "audio/mp3" ∨ m = "audio/mpeg")) ∧
    (getEncodingFromMimeType m = "OGG_OPUS" ↔ m = "audio/ogg") ∧
    (getEncodingFromMimeType m = "FLAC" ↔ m = "audio/flac") ∧
    clientSampleRateHertz = 16000 := by
  refine ⟨?_, ?_, ?_, ?_, ?_, ?_, ?_, ?_, ?_, ?_, ?_, rfl⟩
  · cases hw : includesS m "webm" <;> cases h3 : includesS m "mp3" <;>
      cases hg : includesS m "mpeg" <;> cases hv : includesS m "wav" <;>
      cases hf : includesS m "flac" <;>
      simp [serverEncoding, hw, h3, hg, hv, hf]
  · cases hw : includesS m "webm" <;> simp [serverSampleRateHertz, hw]
  · intro hw
    simp [serverSampleRateHertz, hw]
  · cases hw : includesS m "webm" <;> cases h3 : includesS m "mp3" <;>
      cases hg : includesS m "mpeg" <;> cases hv : includesS m "wav" <;>
      cases hf : includesS m "flac" <;>
      simp [serverEncoding, hw, h3, hg, hv, hf]
  · cases hw : includesS m "webm" <;> cases h3 : includesS m "mp3" <;>
      cases hg : includesS m "mpeg" <;> cases hv : includesS m "wav" <;>
      cases hf : includesS m "flac" <;>
      simp [serverEncoding, hw, h3, hg, hv, hf]
  · cases hw : includesS m "webm" <;> cases h3 : includesS m "mp3" <;>
      cases hg : includesS m "mpeg" <;> cases hv : includesS m "wav" <;>
      cases hf : includesS m "flac" <;>
      simp [serverEncoding, hw, h3, hg, hv, hf]
  · cases hw : includesS m "webm" <;> cases h3 : includesS m "mp3" <;>
      cases hg : includesS m "mpeg" <;> cases hv : includesS m "wav" <;>
      cases hf : includesS m "flac" <;>
      simp [serverEncoding, hw, h3, hg, hv, hf]
  · simp only [getEncodingFromMimeType, Bool.or_eq_true, decide_eq_true_eq]
    split_ifs with h1 h2 h3 h4 h5 <;>
      (try rcases h1 with rfl | rfl) <;>
      (try rcases h3 with rfl | rfl) <;>
      (try subst h2) <;> (try subst h4) <;> (try subst h5) <;>
      simp_all
  · simp only [getEncodingFromMimeType, Bool.or_eq_true, decide_eq_true_eq]
    split_ifs with h1 h2 h3 h4 h5 <;>
      (try rcases h1 with rfl | rfl) <;>
      (try rcases h3 with rfl | rfl) <;>
      (try subst h2) <;> (try subst h4) <;> (try subst h5) <;>
      simp_all
  · simp only [getEncodingFromMimeType, Bool.or_eq_true, decide_eq_true_eq]
    split_ifs with h1 h2 h3 h4 h5 <;>
      (try rcases h1 with rfl | rfl) <;>
      (try rcases h3 with rfl | rfl) <;>
      (try subst h2) <;> (try subst h4) <;> (try subst h5) <;>
      simp_all
  · simp only [getEncodingFromMimeType, Bool.or_eq_true, decide_eq_true_eq]
    split_ifs with h1 h2 h3 h4 h5 <;>
      (try rcases h1 with rfl | rfl) <;>
      (try rcases h3 with rfl | rfl) <;>
      (try subst h2) <;> (try subst h4) <;> (try subst h5) <;>
      simp_all

end VoiceTranscription
